import Mathlib

/-!
Shallow embedding of the snarkVM execution core:
  * the transition `Output` model (`src/vm/compiler/src/ledger/transition/output/mod.rs`),
  * the `Process` engine's `evaluate`/`execute` dispatch and per-output circuit
    logic (`src/vm/compiler/src/process/mod.rs`),
  * the fee assembly pipeline (`src/synthesizer/src/vm/execute_fee.rs`).

Field and scalar elements are abstracted as natural numbers; cryptographic
primitives (BHP hashes, Poseidon hash-to-scalar, Pedersen-style commitments,
group scalar multiplication, record encryption) are external collaborators of
this core and are modelled as parameters (fields of environment structures),
so every theorem quantifies over their behaviour.
-/

namespace SnarkVM

/-- Console field elements, abstracted. -/
abbrev Fq : Type := Nat

/-- Console scalar field elements, abstracted. -/
abbrev Scalar : Type := Nat

namespace Transition

/-- A console `Plaintext`, identified with its little-endian bit serialization
(`to_bits_le`), which is the only view the `Output` model uses. -/
abbrev Plaintext : Type := List Bool

/-- A console `Ciphertext`, identified with its little-endian bit serialization. -/
abbrev Ciphertext : Type := List Bool

/-- A console record ciphertext `Record<N, Ciphertext<N>>`, identified with its
little-endian bit serialization. -/
abbrev RecordCiphertext : Type := List Bool

/-- The transition output (`enum Output<N>` in
`src/vm/compiler/src/ledger/transition/output/mod.rs`):
constant/public plaintext hash with optional plaintext, private ciphertext hash
with optional ciphertext, record commitment + checksum with optional record
ciphertext, and external-record output commitment. -/
inductive Output : Type where
  /-- The plaintext hash and (optional) plaintext. -/
  | constant (id : Fq) (payload : Option Plaintext)
  /-- The plaintext hash and (optional) plaintext. -/
  | public (id : Fq) (payload : Option Plaintext)
  /-- The ciphertext hash and (optional) ciphertext. -/
  | priv (id : Fq) (payload : Option Ciphertext)
  /-- The commitment, checksum, and (optional) record ciphertext. -/
  | record (commitment : Fq) (checksum : Fq) (payload : Option RecordCiphertext)
  /-- The output commitment of the external record. -/
  | externalRecord (id : Fq)
deriving DecidableEq, Repr

/-- `Output::variant`: the stable small-integer tag of the output. -/
def Output.variant : Output → Nat
  | .constant _ _ => 0
  | .public _ _ => 1
  | .priv _ _ => 2
  | .record _ _ _ => 3
  | .externalRecord _ => 4

/-- `Output::id`: the ID of the output (the commitment for a record output). -/
def Output.id : Output → Fq
  | .constant i _ => i
  | .public i _ => i
  | .priv i _ => i
  | .record commitment _ _ => commitment
  | .externalRecord i => i

/-- `Output::checksum`: the checksum, if the output is a record.  The source
pattern `Output::Record(_, checksum, ..)` matches a record output whether or
not the optional record ciphertext is present. -/
def Output.checksum : Output → Option Fq
  | .record _ checksum _ => some checksum
  | _ => none

/-- `Output::verifier_inputs`: the public verifier inputs for the proof — the
output ID, then the checksum if it exists. -/
def Output.verifier_inputs (o : Output) : List Fq :=
  [o.id] ++ o.checksum.toList

/-- `Output::verify`: if the optional value exists, check that its
(little-endian bit) hash under BHP-1024 equals the stored ID (or the stored
checksum for a record output); a hash-function failure yields `false`, and an
absent value yields `true`.  The BHP-1024 hash is an external network
primitive, passed as `hash_bhp1024`. -/
def Output.verify (hash_bhp1024 : List Bool → Except String Fq) : Output → Bool
  | .constant hash (some value) =>
    match hash_bhp1024 value with
    | .ok candidate_hash => hash == candidate_hash
    | .error _ => false
  | .public hash (some value) =>
    match hash_bhp1024 value with
    | .ok candidate_hash => hash == candidate_hash
    | .error _ => false
  | .priv hash (some value) =>
    match hash_bhp1024 value with
    | .ok candidate_hash => hash == candidate_hash
    | .error _ => false
  | .record _ checksum (some value) =>
    match hash_bhp1024 value with
    | .ok candidate_hash => checksum == candidate_hash
    | .error _ => false
  | _ => true

/-- The optional payload of an output, viewed through its little-endian bit
serialization (the serialization `verify` hashes). -/
def Output.payloadBits : Output → Option (List Bool)
  | .constant _ (some v) => some v
  | .public _ (some v) => some v
  | .priv _ (some v) => some v
  | .record _ _ (some v) => some v
  | _ => none

/-- The stored field element the recomputed payload hash is compared against in
`Output::verify`: the ID for constant, public and private outputs, the
checksum for record outputs. -/
def Output.hashTarget : Output → Fq
  | .constant h _ => h
  | .public h _ => h
  | .priv h _ => h
  | .record _ checksum _ => checksum
  | .externalRecord i => i

end Transition

namespace Engine

/-- A program identifier or function name. -/
abbrev Identifier : Type := String

/-- An opaque handle to a record-shaped circuit value; its observable behaviour
(bit serialization, commitment, encryption) lives in `AleoEnv`. -/
abbrev RecordVal : Type := Nat

/-- A circuit value produced by the stack: a plaintext (identified with its
little-endian bit serialization) or a record. -/
inductive CircuitValue : Type where
  | plaintext (bits : List Bool)
  | record (r : RecordVal)
deriving DecidableEq, Repr

/-- A declared value type of a function output, as matched by
`Process::execute` (the match in the source has exactly these four arms). -/
inductive ValueType : Type where
  | constant
  | public
  | priv
  | record
deriving DecidableEq, Repr

/-- The circuit mode an expected value is injected with. -/
inductive Mode : Type where
  | constant
  | public
  | priv
deriving DecidableEq, Repr

/-- The circuit environment `A: circuit::Aleo` — the cryptographic primitives
`Process::execute` calls into, abstracted as functions on the modelled
carriers.  `hashToScalarPsd2` receives the slice of field elements passed to
`A::hash_to_scalar_psd2`; `gScalarMultiplyX` is
`A::g_scalar_multiply(..).to_x_coordinate()`; `recordBits`,
`encryptRecordBits` and `recordToCommitment` are the record operations
`to_bits_le`, `encrypt(..).to_bits_le` and `to_commitment`. -/
structure AleoEnv : Type where
  hashBhp1024 : List Bool → Fq
  hashToScalarPsd2 : List Fq → Scalar
  commitBhp1024 : List Bool → Scalar → Fq
  recordToCommitment : RecordVal → Scalar → Fq
  gScalarMultiplyX : Scalar → Fq
  encryptRecordBits : RecordVal → Scalar → List Bool
  recordBits : RecordVal → List Bool

/-- `to_bits_le` on a circuit value. -/
def CircuitValue.to_bits_le (A : AleoEnv) : CircuitValue → List Bool
  | .plaintext bits => bits
  | .record r => A.recordBits r

/-- `console::types::Field::from_u16`: embeds a 16-bit unsigned integer into
the field (injectively, since the field modulus exceeds `2^16`). -/
def Fq.from_u16 (v : Nat) : Fq := v

/-- The commitment randomizer computed by the `ValueType::Private(..)` branch
of `Process::execute`: the output index is `(num_inputs + index) as u16`
(truncation modulo `2^16`) embedded via `Field::from_u16`, and the randomizer
is `HashToScalar(tvk || index)`. -/
def privateOutputRandomizer (A : AleoEnv) (tvk : Fq) (num_inputs index : Nat) : Scalar :=
  let idx : Fq := Fq.from_u16 ((num_inputs + index) % 65536)
  A.hashToScalarPsd2 [tvk, idx]

/-- The encryption randomizer computed by the `ValueType::Record(..)` branch
of `Process::execute`: the output index is `(num_inputs + index) as u16`
(truncation modulo `2^16`) embedded via `Field::from_u16`, and the randomizer
is `HashToScalar(tvk || index)`. -/
def recordOutputRandomizer (A : AleoEnv) (tvk : Fq) (num_inputs index : Nat) : Scalar :=
  let idx : Fq := Fq.from_u16 ((num_inputs + index) % 65536)
  A.hashToScalarPsd2 [tvk, idx]

/-- The observable effects of processing one output in `Process::execute`:
the leaves appended to the trace by `trace.add_output`, and the equality
assertions `A::assert_eq(computed, expected)` recorded as the injection mode
of the expected value together with the asserted value. -/
structure ProcessedOutput : Type where
  traceLeaves : List Fq
  assertions : List (Mode × Fq)
deriving DecidableEq, Repr

/-- One iteration of the output loop of `Process::execute`: branch on the
declared value type of the output at position `index` in a call with
`num_inputs` inputs and perform the hash / commitment / record logic of the
corresponding source arm. -/
def processOutput (A : AleoEnv) (tvk : Fq) (num_inputs index : Nat)
    (output : CircuitValue) : ValueType → Except String ProcessedOutput
  | .constant =>
    let output_hash := A.hashBhp1024 (output.to_bits_le A)
    .ok ⟨[output_hash], [(Mode.constant, output_hash)]⟩
  | .public =>
    let output_hash := A.hashBhp1024 (output.to_bits_le A)
    .ok ⟨[output_hash], [(Mode.public, output_hash)]⟩
  | .priv =>
    let randomizer := privateOutputRandomizer A tvk num_inputs index
    let commitment := A.commitBhp1024 (output.to_bits_le A) randomizer
    .ok ⟨[commitment], [(Mode.public, commitment)]⟩
  | .record =>
    match output with
    | .plaintext _ => .error ("Expected a record input, found a plaintext input")
    | .record r =>
      let randomizer := recordOutputRandomizer A tvk num_inputs index
      let commitment := A.recordToCommitment r randomizer
      let nonce := A.gScalarMultiplyX randomizer
      let checksum := A.hashBhp1024 (A.encryptRecordBits r randomizer)
      .ok ⟨[commitment],
           [(Mode.public, commitment), (Mode.public, nonce), (Mode.public, checksum)]⟩

/-- `itertools::zip_eq`: zips two lists, with `none` standing for the panic
raised when the iterators have different lengths. -/
def zipEq : List α → List β → Option (List (α × β))
  | [], [] => some []
  | a :: as, b :: bs => (zipEq as bs).map (fun l => (a, b) :: l)
  | _, _ => none

/-- The output loop of `Process::execute`, enumerating from `index`. -/
def processOutputs (A : AleoEnv) (tvk : Fq) (num_inputs : Nat) :
    Nat → List (CircuitValue × ValueType) → Except String (List ProcessedOutput)
  | _, [] => .ok []
  | index, (output, ty) :: rest =>
    match processOutput A tvk num_inputs index output ty with
    | .error e => .error e
    | .ok po =>
      match processOutputs A tvk num_inputs (index + 1) rest with
      | .error e => .error e
      | .ok pos => .ok (po :: pos)

/-- A program function: its name, declared input types, and declared output
value types (the `value_type()` projection of its output statements). -/
structure Function : Type where
  name : Identifier
  inputs : List ValueType
  outputs : List ValueType
deriving DecidableEq, Repr

/-- A program: its named functions.  `Process` owns one program. -/
structure Program : Type where
  functions : List (Identifier × Function)
deriving DecidableEq, Repr

/-- `Program::get_function`: resolves a function by name, failing when it is
absent. -/
def Program.get_function (p : Program) (name : Identifier) : Except String Function :=
  match p.functions.lookup name with
  | some f => .ok f
  | none => .error ("Function not found")

/-- A signed call request.  `verifies` is the (boolean) outcome of the console
`Request::verify` signature/serial-number check, which is an external
collaborator of this core. -/
structure Request : Type where
  verifies : Bool
  functionName : Identifier
  inputs : List CircuitValue
  tvk : Fq
deriving DecidableEq, Repr

/-- Modelled from the spec: `Response::new` (console code outside `src/`) —
a `Response` is the tuple (num_inputs, tvk, output values, output types). -/
structure Response : Type where
  num_inputs : Nat
  tvk : Fq
  outputs : List CircuitValue
  output_types : List ValueType
deriving DecidableEq, Repr

/-- The stack collaborator: raw per-instruction evaluation and in-circuit
execution of a function. -/
structure StackEnv : Type where
  evaluateFunction : Function → List CircuitValue → Except String (List CircuitValue)
  executeFunction : Function → List CircuitValue → Except String (List CircuitValue)

/-- A recorded delegation to the stack collaborator. -/
inductive StackCall : Type where
  | evaluateFunction
  | executeFunction
deriving DecidableEq, Repr

/-- The outcome of `Process::execute`: an ordinary error (`bail!`/`ensure!`)
or a panic (modelling `itertools::zip_eq`'s length-mismatch panic). -/
inductive ExecError : Type where
  | message (s : String)
  | panicked (s : String)
deriving DecidableEq, Repr

/-- The process: owns the program. -/
structure Process : Type where
  program : Program

/-- `Process::evaluate`: ensure the request is well-formed, resolve the
function, check the arity, then delegate raw evaluation to the stack and wrap
the outputs into a `Response`.  The second component records the delegations
made to the stack collaborator. -/
def Process.evaluate (senv : StackEnv) (self : Process) (request : Request) :
    Except String Response × List StackCall :=
  if !request.verifies then (.error ("Request is invalid"), [])
  else
    let inputs := request.inputs
    let num_inputs := inputs.length
    match self.program.get_function request.functionName with
    | .error e => (.error e, [])
    | .ok function =>
      if function.inputs.length != num_inputs then
        (.error ("Expected a different number of inputs"), [])
      else
        match senv.evaluateFunction function inputs with
        | .error e => (.error e, [.evaluateFunction])
        | .ok outputs =>
          let output_types := function.outputs
          (.ok ⟨num_inputs, request.tvk, outputs, output_types⟩, [.evaluateFunction])

/-- `Process::execute`: same preconditions as `evaluate`; then (in a fresh
circuit context, with the request injected and asserted) delegate in-circuit
execution to the stack, pair the returned outputs with the declared output
types via `zip_eq`, and run the per-output circuit logic.  Returns the circuit
outputs; the second component records the delegations made to the stack
collaborator. -/
def Process.execute (A : AleoEnv) (senv : StackEnv) (self : Process) (request : Request) :
    Except ExecError (List CircuitValue) × List StackCall :=
  if !request.verifies then (.error (.message ("Request is invalid")), [])
  else
    let num_inputs := request.inputs.length
    match self.program.get_function request.functionName with
    | .error e => (.error (.message e), [])
    | .ok function =>
      if function.inputs.length != num_inputs then
        (.error (.message ("Expected a different number of inputs")), [])
      else
        match senv.executeFunction function request.inputs with
        | .error e => (.error (.message e), [.executeFunction])
        | .ok outputs =>
          let output_types := function.outputs
          match zipEq outputs output_types with
          | none =>
            (.error (.panicked ("itertools: zip_eq reached the end of one iterator before the other")),
             [.executeFunction])
          | some pairs =>
            match processOutputs A request.tvk num_inputs 0 pairs with
            | .error e => (.error (.message e), [.executeFunction])
            | .ok _ => (.ok outputs, [.executeFunction])

end Engine

namespace VM

/-- A console literal, as matched by the balance check of
`VM::execute_fee_raw`: a `u64` literal or any other literal kind (abstracted
by a tag). -/
inductive Literal : Type where
  | u64 (v : Nat)
  | otherLiteral (tag : Nat)
deriving DecidableEq, Repr

/-- A console plaintext entry value: a literal or any non-literal plaintext
(abstracted by a tag). -/
inductive Plaintext : Type where
  | literal (l : Literal)
  | otherPlaintext (tag : Nat)
deriving DecidableEq, Repr

/-- A record entry with its visibility: `Entry::Constant`, `Entry::Public` or
`Entry::Private`. -/
inductive Entry : Type where
  | constant (p : Plaintext)
  | public (p : Plaintext)
  | priv (p : Plaintext)
deriving DecidableEq, Repr

/-- A fee record, as the association of entry names to entries. -/
abbrev FeeRecord : Type := List (String × Entry)

/-- Modelled from the spec: console `Record::find` (console code outside
`src/`) — looks up the entry under the designated name, failing when the
record has no such entry ("balance field named by convention", §3 of the
spec). -/
def Record.find (r : FeeRecord) (name : String) : Except String Entry :=
  match r.lookup name with
  | some e => .ok e
  | none => .error ("Record entry not found")

/-- The successful result of `Process::prepare_fee`: a response, the fee
transition, and the per-constraint assignment data (the inclusion handle and
call metrics are carried alongside). -/
structure PrepareFeeOk : Type where
  response : Nat
  feeTransition : Nat
  feeAssignments : List Nat
  metrics : List Nat
deriving DecidableEq, Repr

/-- A fee artifact: `Fee::from(transition, global_state_root, proof)`. -/
structure Fee : Type where
  transition : Nat
  globalStateRoot : Nat
  proof? : Option Nat
deriving DecidableEq, Repr

/-- A fee transaction: `Transaction::from_fee(fee)`. -/
structure Transaction : Type where
  fee : Fee
deriving DecidableEq, Repr

/-- The collaborators `VM::execute_fee_raw` delegates to: the process engine's
`prepare_fee` and `execute_fee` (the latter populates the proof slot of the
fee), the inclusion collaborator's `prepare_fee` (taking the fee transition
and the resolved query) and `fee_global_state_root`, the proving-backend
conversion `to_circuit_assignment`, and the default query view over the local
block store. -/
structure FeeEnv : Type where
  prepareFee : Nat → FeeRecord → Nat → Except String PrepareFeeOk
  inclusionPrepareFee : Nat → Nat → Except String (List Nat)
  feeGlobalStateRoot : List Nat → Except String Nat
  toCircuitAssignment : Nat → Nat
  processExecuteFee : Fee → List Nat → Option (List Nat) → Except String Fee
  vmQuery : Nat

/-- A recorded delegation to a collaborator during `VM::execute_fee_raw`.
`processExecuteFee` records the optional inclusion assignments passed to the
proof-populating step. -/
inductive FeeCall : Type where
  | prepareFee
  | inclusionPrepareFee
  | feeGlobalStateRoot
  | processExecuteFee (inclusionAssignments : Option (List Nat))
deriving DecidableEq, Repr

/-- The balance precondition of `VM::execute_fee_raw`: the record's
`microcredits` entry must be a private `u64` plaintext literal whose value is
at least the requested fee; otherwise fail with the corresponding `bail!`
message. -/
def balanceCheck (fee_record : FeeRecord) (fee_in_microcredits : Nat) :
    Except String Unit :=
  match Record.find fee_record "microcredits" with
  | .ok (.priv (.literal (.u64 amount))) =>
    if amount < fee_in_microcredits then
      .error ("Fee record does not have enough balance to pay the fee")
    else
      .ok ()
  | _ => .error ("Fee record does not have microcredits")

/-- `VM::execute_fee_raw`: resolve the query, check the fee record's balance,
call `prepare_fee`, prepare the inclusion assignments (collapsing an empty
assignment list to `none`), derive the global state root, build the draft fee
and have the proving step populate its proof, and return the response, fee and
call metrics.  The second component records the delegations made to the
collaborators, in order. -/
def executeFeeRaw (env : FeeEnv) (private_key : Nat) (fee_record : FeeRecord)
    (fee_in_microcredits : Nat) (query : Option Nat) :
    Except String (Nat × Fee × List Nat) × List FeeCall :=
  let query := match query with
    | some q => q
    | none => env.vmQuery
  match balanceCheck fee_record fee_in_microcredits with
  | .error e => (.error e, [])
  | .ok _ =>
    match env.prepareFee private_key fee_record fee_in_microcredits with
    | .error e => (.error e, [.prepareFee])
    | .ok pf =>
      match env.inclusionPrepareFee pf.feeTransition query with
      | .error e => (.error e, [.prepareFee, .inclusionPrepareFee])
      | .ok inclusion_assignments =>
        match env.feeGlobalStateRoot inclusion_assignments with
        | .error e => (.error e, [.prepareFee, .inclusionPrepareFee, .feeGlobalStateRoot])
        | .ok global_state_root =>
          let circuit_assignments := inclusion_assignments.map env.toCircuitAssignment
          let inclusion_assignments :=
            if circuit_assignments.length == 0 then none else some circuit_assignments
          let fee := Fee.mk pf.feeTransition global_state_root none
          let calls := [FeeCall.prepareFee, FeeCall.inclusionPrepareFee,
                        FeeCall.feeGlobalStateRoot,
                        FeeCall.processExecuteFee inclusion_assignments]
          match env.processExecuteFee fee pf.feeAssignments inclusion_assignments with
          | .error e => (.error e, calls)
          | .ok fee => (.ok (pf.response, fee, pf.metrics), calls)

/-- `VM::execute_fee`: computes the fee via `execute_fee_raw` and wraps it
into a fee transaction via `Transaction::from_fee`. -/
def executeFee (env : FeeEnv) (private_key : Nat) (fee_record : FeeRecord)
    (fee_in_microcredits : Nat) (query : Option Nat) :
    Except String Transaction × List FeeCall :=
  match executeFeeRaw env private_key fee_record fee_in_microcredits query with
  | (.error e, calls) => (.error e, calls)
  | (.ok (_, fee, _), calls) => (.ok (Transaction.mk fee), calls)

end VM

/-- A concrete circuit environment, used to instantiate the theorems below on
concrete inputs. -/
def sampleAleoEnv : Engine.AleoEnv where
  hashBhp1024 := fun bs => bs.length + 1
  hashToScalarPsd2 := fun l => l.sum + 3
  commitBhp1024 := fun bs r => bs.length + 7 * r
  recordToCommitment := fun rc s => rc + 31 * s
  gScalarMultiplyX := fun s => s + 11
  encryptRecordBits := fun rc s => List.replicate (rc + s) true
  recordBits := fun rc => List.replicate rc false

/-- A concrete stack collaborator that returns one circuit value per declared
output of the called function. -/
def sampleStackEnv : Engine.StackEnv where
  evaluateFunction := fun f _ => .ok (f.outputs.map (fun _ => Engine.CircuitValue.record 0))
  executeFunction := fun f _ => .ok (f.outputs.map (fun _ => Engine.CircuitValue.record 0))

/-- A concrete program function with one input and one output. -/
def sampleFunction : Engine.Function :=
  ⟨"compute", [Engine.ValueType.priv], [Engine.ValueType.priv]⟩

/-- A concrete process owning a one-function program. -/
def sampleProcess : Engine.Process :=
  ⟨⟨[("compute", sampleFunction)]⟩⟩

/-- A concrete request whose signature check fails. -/
def sampleBadRequest : Engine.Request :=
  ⟨false, "compute", [Engine.CircuitValue.plaintext [true]], 9⟩

/-- A concrete well-formed request for `sampleProcess`. -/
def sampleGoodRequest : Engine.Request :=
  ⟨true, "compute", [Engine.CircuitValue.plaintext [true]], 9⟩

/-- A concrete fee-pipeline environment whose collaborators all succeed. -/
def sampleFeeEnv : VM.FeeEnv where
  prepareFee := fun _ _ _ => .ok ⟨1, 2, [3], [4]⟩
  inclusionPrepareFee := fun _ _ => .ok [5]
  feeGlobalStateRoot := fun _ => .ok 6
  toCircuitAssignment := fun a => a + 1
  processExecuteFee := fun fee _ _ => .ok ⟨fee.transition, fee.globalStateRoot, some 7⟩
  vmQuery := 0

/-- A concrete fee record with 5 microcredits under a private `u64` entry. -/
def sampleFeeRecord : VM.FeeRecord :=
  [("owner", VM.Entry.priv (VM.Plaintext.otherPlaintext 0)),
   ("microcredits", VM.Entry.priv (VM.Plaintext.literal (VM.Literal.u64 5)))]

/-- A concrete fee record whose `microcredits` entry is a public `u64`. -/
def sampleBadFeeRecord : VM.FeeRecord :=
  [("microcredits", VM.Entry.public (VM.Plaintext.literal (VM.Literal.u64 5)))]

/-- C1 (counterexample): the claim states that a `Record` output without a
payload contributes exactly its ID to the verifier inputs; on the code,
`Output::checksum` matches `Record(_, checksum, ..)` irrespective of the
payload, so a payload-less record output contributes its checksum as well. -/
theorem C1_counterexample :
    (Transition.Output.record 1 2 none).verifier_inputs ≠
      [(Transition.Output.record 1 2 none).id] := by
  decide

/-- C1 (amended): `verifier_inputs()` yields the output's `id()` first, and
yields a second element (the checksum) if and only if the output is the
`Record` variant — whether or not its optional record payload is present; for
`Constant`, `Public`, `Private` and `ExternalRecord` outputs it yields exactly
the ID and nothing else. -/
theorem C1_verifier_inputs (o : Transition.Output) :
    o.verifier_inputs.head? = some o.id ∧
    (o.variant = 3 → ∃ k, o.checksum = some k ∧ o.verifier_inputs = [o.id, k]) ∧
    (o.variant ≠ 3 → o.verifier_inputs = [o.id]) := by
  cases o <;>
    simp [Transition.Output.verifier_inputs, Transition.Output.checksum,
      Transition.Output.id, Transition.Output.variant]

/-- C1 (witness): the amended claim evaluated at a concrete payload-less
record output. -/
theorem C1_witness :
    (Transition.Output.record 1 2 none).verifier_inputs.head? =
      some (Transition.Output.record 1 2 none).id :=
  (C1_verifier_inputs (Transition.Output.record 1 2 none)).1

/-- Characterization of `Output::verify` by the payload bit serialization and
the stored hash target. -/
theorem Transition.Output.verify_eq_spec (h : List Bool → Except String Fq)
    (o : Transition.Output) :
    o.verify h =
      (match o.payloadBits with
       | none => true
       | some b =>
         match h b with
         | .ok c => o.hashTarget == c
         | .error _ => false) := by
  cases o with
  | constant i p => cases p <;> rfl
  | public i p => cases p <;> rfl
  | priv i p => cases p <;> rfl
  | record c k p => cases p <;> rfl
  | externalRecord i => rfl

/-- C4: `Output::verify` returns `true` when the optional payload is absent;
when the payload is present, it returns `true` exactly when the BHP-1024 hash
of the payload's little-endian bit serialization computes to the stored
target — the ID for `Constant`/`Public`/`Private`, the checksum for `Record` —
and returns `false` (rather than propagating an error) when the hash
computation fails. -/
theorem C4_verify (h : List Bool → Except String Fq) (o : Transition.Output) :
    (o.payloadBits = none → o.verify h = true) ∧
    (∀ b, o.payloadBits = some b →
      (o.verify h = true ↔ h b = .ok o.hashTarget) ∧
      (∀ e, h b = .error e → o.verify h = false)) ∧
    (o.variant ≠ 3 → o.hashTarget = o.id) ∧
    (o.variant = 3 → some o.hashTarget = o.checksum) := by
  refine ⟨?_, ?_, ?_, ?_⟩
  · intro hnone
    rw [Transition.Output.verify_eq_spec, hnone]
  · intro b hb
    constructor
    · rw [Transition.Output.verify_eq_spec, hb]
      cases hhb : h b with
      | ok c =>
        simp only [hhb, beq_iff_eq, Except.ok.injEq]
        exact eq_comm
      | error e => simp [hhb]
    · intro e he
      rw [Transition.Output.verify_eq_spec, hb]
      simp [he]
  · intro hv
    cases o <;>
      simp_all [Transition.Output.variant, Transition.Output.hashTarget,
        Transition.Output.id]
  · intro hv
    cases o <;>
      simp_all [Transition.Output.variant, Transition.Output.hashTarget,
        Transition.Output.checksum]

/-- C4 (witness): the payload-present case evaluated at a concrete public
output and a concrete hash function. -/
theorem C4_witness :
    ((Transition.Output.public 2 (some [true])).verify
        (fun b => if b.length = 0 then .error "empty" else .ok b.length) = true ↔
      (fun (b : List Bool) => if b.length = 0 then (.error "empty" : Except String Fq)
        else .ok b.length) [true] =
        .ok (Transition.Output.public 2 (some [true])).hashTarget) :=
  ((C4_verify (fun b => if b.length = 0 then .error "empty" else .ok b.length)
      (Transition.Output.public 2 (some [true]))).2.1 [true] rfl).1

/-- C3 (counterexample): the claim states the randomizer is the hash-to-scalar
of `(tvk, num_inputs + position)` with the output index always equal to
`num_inputs + position`; on the code the index is cast to `u16` first, so for
`num_inputs + position = 2^16` the derived randomizer differs from the
claimed one. -/
theorem C3_counterexample :
    Engine.privateOutputRandomizer sampleAleoEnv 0 65536 0 ≠
      sampleAleoEnv.hashToScalarPsd2 [0, Engine.Fq.from_u16 (65536 + 0)] := by
  decide

/-- C3 (amended): for every `Private`-typed output at position `p` in a call
with `n` inputs, and every `Record`-typed output at position `p`, the
commitment/encryption randomizer is derived as hash-to-scalar of
`(tvk, from_u16 ((n + p) mod 2^16))`; the output index equals `n + p` whenever
`n + p < 2^16`; and the derivation is identical for the `Private` branch and
the `Record` branch. -/
theorem C3_randomizer (A : Engine.AleoEnv) (tvk : Fq) (n p : Nat) :
    Engine.privateOutputRandomizer A tvk n p = Engine.recordOutputRandomizer A tvk n p ∧
    Engine.privateOutputRandomizer A tvk n p =
      A.hashToScalarPsd2 [tvk, Engine.Fq.from_u16 ((n + p) % 65536)] ∧
    (n + p < 65536 →
      Engine.privateOutputRandomizer A tvk n p =
        A.hashToScalarPsd2 [tvk, Engine.Fq.from_u16 (n + p)]) := by
  refine ⟨rfl, rfl, fun h => ?_⟩
  simp [Engine.privateOutputRandomizer, Engine.Fq.from_u16, Nat.mod_eq_of_lt h]

/-- C3 (witness): the amended claim evaluated at a concrete environment with
`n = 3`, `p = 1`. -/
theorem C3_witness :
    Engine.privateOutputRandomizer sampleAleoEnv 2 3 1 =
      sampleAleoEnv.hashToScalarPsd2 [2, Engine.Fq.from_u16 (3 + 1)] :=
  (C3_randomizer sampleAleoEnv 2 3 1).2.2 (by decide)

/-- C6: in `Process::execute`, processing a `Record`-typed output appends
exactly one leaf to the trace — the record commitment — while the record
nonce (the generator scaled by the randomizer, x-coordinate) and the record
checksum (the hash of the encrypted record's bits) are asserted against
publicly injected expected values but are not appended to the trace. -/
theorem C6_record_trace (A : Engine.AleoEnv) (tvk : Fq) (n p : Nat)
    (r : Engine.RecordVal) :
    ∃ po, Engine.processOutput A tvk n p (Engine.CircuitValue.record r)
        Engine.ValueType.record = .ok po ∧
      po.traceLeaves =
        [A.recordToCommitment r (Engine.recordOutputRandomizer A tvk n p)] ∧
      po.assertions =
        [(Engine.Mode.public,
          A.recordToCommitment r (Engine.recordOutputRandomizer A tvk n p)),
         (Engine.Mode.public,
          A.gScalarMultiplyX (Engine.recordOutputRandomizer A tvk n p)),
         (Engine.Mode.public,
          A.hashBhp1024
            (A.encryptRecordBits r (Engine.recordOutputRandomizer A tvk n p)))] :=
  ⟨_, rfl, rfl, rfl⟩

/-- C6 (witness): the record branch evaluated at a concrete environment. -/
theorem C6_witness :
    ∃ po, Engine.processOutput sampleAleoEnv 2 3 1 (Engine.CircuitValue.record 4)
        Engine.ValueType.record = .ok po ∧
      po.traceLeaves =
        [sampleAleoEnv.recordToCommitment 4 (Engine.recordOutputRandomizer sampleAleoEnv 2 3 1)] ∧
      po.assertions =
        [(Engine.Mode.public,
          sampleAleoEnv.recordToCommitment 4 (Engine.recordOutputRandomizer sampleAleoEnv 2 3 1)),
         (Engine.Mode.public,
          sampleAleoEnv.gScalarMultiplyX (Engine.recordOutputRandomizer sampleAleoEnv 2 3 1)),
         (Engine.Mode.public,
          sampleAleoEnv.hashBhp1024
            (sampleAleoEnv.encryptRecordBits 4 (Engine.recordOutputRandomizer sampleAleoEnv 2 3 1)))] :=
  C6_record_trace sampleAleoEnv 2 3 1 4

/-- C8: the output index used for randomizer derivation is
`(num_inputs + position) as u16`, so whenever `num_inputs + position ≥ 2^16`
the derived index equals `(num_inputs + position) mod 2^16` (and differs from
`num_inputs + position`), making the randomizer collide with the randomizer
of any output whose index reduces to the same value. -/
theorem C8_index_truncation (A : Engine.AleoEnv) (tvk : Fq) (n p : Nat)
    (h : 65536 ≤ n + p) :
    Engine.privateOutputRandomizer A tvk n p =
      A.hashToScalarPsd2 [tvk, Engine.Fq.from_u16 ((n + p) % 65536)] ∧
    Engine.recordOutputRandomizer A tvk n p =
      A.hashToScalarPsd2 [tvk, Engine.Fq.from_u16 ((n + p) % 65536)] ∧
    (n + p) % 65536 ≠ n + p ∧
    (∀ n' p', (n' + p') % 65536 = (n + p) % 65536 →
      Engine.privateOutputRandomizer A tvk n' p' =
        Engine.privateOutputRandomizer A tvk n p ∧
      Engine.recordOutputRandomizer A tvk n' p' =
        Engine.recordOutputRandomizer A tvk n p) := by
  refine ⟨rfl, rfl, ?_, ?_⟩
  · have hlt : (n + p) % 65536 < 65536 := Nat.mod_lt _ (by decide)
    omega
  · intro n' p' hmod
    constructor
    · simp [Engine.privateOutputRandomizer, Engine.Fq.from_u16, hmod]
    · simp [Engine.recordOutputRandomizer, Engine.Fq.from_u16, hmod]

/-- C8 (witness): the truncation evaluated at `n = 65535`, `p = 1`. -/
theorem C8_witness :
    Engine.privateOutputRandomizer sampleAleoEnv 5 65535 1 =
      sampleAleoEnv.hashToScalarPsd2 [5, Engine.Fq.from_u16 ((65535 + 1) % 65536)] :=
  (C8_index_truncation sampleAleoEnv 5 65535 1 (by decide)).1

/-- C5: both `Process::evaluate` and `Process::execute` fail with an error —
before delegating any computation to the stack collaborator — whenever the
request's own verifier rejects it, or the named function is not found in the
program, or the number of request inputs differs from the function's declared
input count; no response or circuit outputs are produced for such a request. -/
theorem C5_preconditions (A : Engine.AleoEnv) (senv : Engine.StackEnv)
    (proc : Engine.Process) (request : Engine.Request)
    (h : request.verifies = false ∨
      (∃ e, proc.program.get_function request.functionName = .error e) ∨
      (∃ f, proc.program.get_function request.functionName = .ok f ∧
        f.inputs.length ≠ request.inputs.length)) :
    (∃ e, (Engine.Process.evaluate senv proc request).1 = .error e) ∧
    (Engine.Process.evaluate senv proc request).2 = [] ∧
    (∃ e, (Engine.Process.execute A senv proc request).1 = .error e) ∧
    (Engine.Process.execute A senv proc request).2 = [] := by
  unfold Engine.Process.evaluate Engine.Process.execute
  rcases h with h | ⟨e, he⟩ | ⟨f, hf, hlen⟩
  · simp [h]
  · cases hv : request.verifies
    · simp [hv]
    · simp [hv, he]
  · cases hv : request.verifies
    · simp [hv]
    · simp [hv, hf, bne_iff_ne, hlen]

/-- C5 (witness): a request whose signature check fails yields no stack
delegation from `Process::evaluate`. -/
theorem C5_witness :
    (Engine.Process.evaluate sampleStackEnv sampleProcess sampleBadRequest).2 = [] :=
  (C5_preconditions sampleAleoEnv sampleStackEnv sampleProcess sampleBadRequest
    (Or.inl rfl)).2.1

/-- `zip_eq` of two lists of equal length succeeds. -/
theorem Engine.zipEq_isSome (as : List α) :
    ∀ bs : List β, as.length = bs.length → ∃ l, Engine.zipEq as bs = some l := by
  induction as with
  | nil =>
    intro bs h
    cases bs with
    | nil => exact ⟨[], rfl⟩
    | cons b bs => simp at h
  | cons a as ih =>
    intro bs h
    cases bs with
    | nil => simp at h
    | cons b bs =>
      obtain ⟨l, hl⟩ := ih bs (by simpa using h)
      exact ⟨(a, b) :: l, by simp [Engine.zipEq, hl]⟩

/-- C10: `Process::execute` pairs the stack's circuit outputs with the
declared output types via `zip_eq`; under the precondition that the stack
returns exactly one value per declared output, the length-mismatch panic
branch is unreachable, so `execute` never panics — every outcome is an
ordinary `Result`. -/
theorem C10_zip_eq_total (A : Engine.AleoEnv) (senv : Engine.StackEnv)
    (proc : Engine.Process) (request : Engine.Request)
    (hstack : ∀ f ins outs, senv.executeFunction f ins = .ok outs →
      outs.length = f.outputs.length) :
    ∀ m, (Engine.Process.execute A senv proc request).1 ≠
      .error (Engine.ExecError.panicked m) := by
  intro m
  unfold Engine.Process.execute
  cases hv : request.verifies
  · simp [hv]
  · simp only [hv, Bool.not_true, Bool.false_eq_true, if_false]
    cases hf : proc.program.get_function request.functionName with
    | error e => simp [hf]
    | ok f =>
      simp only []
      cases hne : (f.inputs.length != request.inputs.length)
      · simp only [hne, Bool.false_eq_true, if_false]
        cases hex : senv.executeFunction f request.inputs with
        | error e => simp [hex]
        | ok outs =>
          obtain ⟨pairs, hzip⟩ :=
            Engine.zipEq_isSome outs f.outputs (hstack f request.inputs outs hex)
          simp only [hex, hzip]
          cases hpo : Engine.processOutputs A request.tvk request.inputs.length 0 pairs <;>
            simp [hpo]
      · simp [hne]

/-- C10 (witness): with a stack returning one value per declared output,
`execute` on a concrete request is not a panic. -/
theorem C10_witness :
    (Engine.Process.execute sampleAleoEnv sampleStackEnv sampleProcess
        sampleGoodRequest).1 ≠
      .error (Engine.ExecError.panicked
        ("itertools: zip_eq reached the end of one iterator before the other")) :=
  C10_zip_eq_total sampleAleoEnv sampleStackEnv sampleProcess sampleGoodRequest
    (by
      intro f ins outs h
      injection h with h'
      subst h'
      simp)
    ("itertools: zip_eq reached the end of one iterator before the other")

/-- C2: for a fee record whose designated balance entry is a private `u64`
literal with value `B` and a requested fee `F`, `execute_fee_raw` passes the
balance precondition iff `F ≤ B`; when `B < F` both `execute_fee_raw` and
`execute_fee` fail with the insufficient-balance error, and when no private
`u64` `microcredits` entry can be found they fail with the malformed-record
error — in every failure case before any collaborator (in particular
`prepare_fee`) is invoked and with no partial result. -/
theorem C2_fee_balance (env : VM.FeeEnv) (pk : Nat) (q : Option Nat)
    (r : VM.FeeRecord) (B F : Nat)
    (hfind : VM.Record.find r "microcredits" =
      .ok (VM.Entry.priv (VM.Plaintext.literal (VM.Literal.u64 B)))) :
    (VM.balanceCheck r F = .ok () ↔ F ≤ B) ∧
    (B < F →
      VM.executeFeeRaw env pk r F q =
        (.error ("Fee record does not have enough balance to pay the fee"), []) ∧
      VM.executeFee env pk r F q =
        (.error ("Fee record does not have enough balance to pay the fee"), [])) ∧
    (∀ r' : VM.FeeRecord,
      (∀ e, VM.Record.find r' "microcredits" = .ok e →
        ∀ B', e ≠ VM.Entry.priv (VM.Plaintext.literal (VM.Literal.u64 B'))) →
      VM.executeFeeRaw env pk r' F q =
        (.error ("Fee record does not have microcredits"), []) ∧
      VM.executeFee env pk r' F q =
        (.error ("Fee record does not have microcredits"), [])) := by
  have hbal : ∀ G, VM.balanceCheck r G =
      (if B < G then .error ("Fee record does not have enough balance to pay the fee")
       else .ok ()) := by
    intro G
    simp [VM.balanceCheck, hfind]
  refine ⟨?_, ?_, ?_⟩
  · constructor
    · intro hok
      by_contra hnot
      rw [hbal F, if_pos (Nat.lt_of_not_le hnot)] at hok
      simp at hok
    · intro hFB
      rw [hbal F, if_neg (Nat.not_lt.mpr hFB)]
  · intro hBF
    have hb : VM.balanceCheck r F =
        .error ("Fee record does not have enough balance to pay the fee") := by
      rw [hbal F]
      simp [hBF]
    constructor
    · unfold VM.executeFeeRaw
      simp [hb]
    · unfold VM.executeFee VM.executeFeeRaw
      simp [hb]
  · intro r' hshape
    have hb : VM.balanceCheck r' F = .error ("Fee record does not have microcredits") := by
      unfold VM.balanceCheck
      cases hfe : VM.Record.find r' "microcredits" with
      | error e => rfl
      | ok e =>
        have hne := hshape e hfe
        match e with
        | .constant pt => rfl
        | .public pt => rfl
        | .priv (.literal (.u64 v)) => exact absurd rfl (hne v)
        | .priv (.literal (.otherLiteral t)) => rfl
        | .priv (.otherPlaintext t) => rfl
    constructor
    · unfold VM.executeFeeRaw
      simp [hb]
    · unfold VM.executeFee VM.executeFeeRaw
      simp [hb]

/-- C2 (witness): the balance precondition evaluated at a concrete record with
`B = 5` and `F = 3`. -/
theorem C2_witness : VM.balanceCheck sampleFeeRecord 3 = .ok () ↔ 3 ≤ 5 :=
  (C2_fee_balance sampleFeeEnv 0 none sampleFeeRecord 5 3 rfl).1

/-- C7: in `execute_fee_raw`, when the collaborators succeed, the inclusion
assignments passed to the proof-populating step are `none` when the prepared
assignment list is empty and `some` of the converted list otherwise, as
recorded by the `processExecuteFee` delegation. -/
theorem C7_inclusion_collapse (env : VM.FeeEnv) (pk : Nat) (q : Option Nat)
    (r : VM.FeeRecord) (F : Nat) (pf : VM.PrepareFeeOk) (l : List Nat) (root : Nat)
    (hbal : VM.balanceCheck r F = .ok ())
    (hpf : env.prepareFee pk r F = .ok pf)
    (hincl : env.inclusionPrepareFee pf.feeTransition (q.getD env.vmQuery) = .ok l)
    (hroot : env.feeGlobalStateRoot l = .ok root) :
    (VM.executeFeeRaw env pk r F q).2 =
      [VM.FeeCall.prepareFee, VM.FeeCall.inclusionPrepareFee,
       VM.FeeCall.feeGlobalStateRoot,
       VM.FeeCall.processExecuteFee
         (if l = [] then none else some (l.map env.toCircuitAssignment))] := by
  cases q with
  | none =>
    simp only [Option.getD_none] at hincl
    unfold VM.executeFeeRaw
    simp only [hbal, hpf, hincl, hroot]
    cases hpe : env.processExecuteFee
        (VM.Fee.mk pf.feeTransition root none) pf.feeAssignments
        (if (l.map env.toCircuitAssignment).length == 0 then none
         else some (l.map env.toCircuitAssignment)) <;>
      cases l <;> simp [hpe]
  | some qq =>
    simp only [Option.getD_some] at hincl
    unfold VM.executeFeeRaw
    simp only [hbal, hpf, hincl, hroot]
    cases hpe : env.processExecuteFee
        (VM.Fee.mk pf.feeTransition root none) pf.feeAssignments
        (if (l.map env.toCircuitAssignment).length == 0 then none
         else some (l.map env.toCircuitAssignment)) <;>
      cases l <;> simp [hpe]

/-- C7 (witness): the collapse evaluated at a concrete environment whose
inclusion collaborator prepares the non-empty list `[5]`. -/
theorem C7_witness :
    (VM.executeFeeRaw sampleFeeEnv 0 sampleFeeRecord 3 none).2 =
      [VM.FeeCall.prepareFee, VM.FeeCall.inclusionPrepareFee,
       VM.FeeCall.feeGlobalStateRoot,
       VM.FeeCall.processExecuteFee
         (if ([5] : List Nat) = [] then none
          else some (([5] : List Nat).map sampleFeeEnv.toCircuitAssignment))] :=
  C7_inclusion_collapse sampleFeeEnv 0 none sampleFeeRecord 3 ⟨1, 2, [3], [4]⟩ [5] 6
    rfl rfl rfl rfl

/-- C9: a fee record whose `microcredits` entry exists but is public,
constant, or a literal of any type other than `u64` makes `execute_fee_raw`
fail with the malformed-record error ("does not have microcredits"), not the
insufficient-balance error. -/
theorem C9_malformed_entry (env : VM.FeeEnv) (pk : Nat) (q : Option Nat)
    (r : VM.FeeRecord) (F : Nat) (e : VM.Entry)
    (hfind : VM.Record.find r "microcredits" = .ok e)
    (hshape : ∀ B, e ≠ VM.Entry.priv (VM.Plaintext.literal (VM.Literal.u64 B))) :
    VM.executeFeeRaw env pk r F q =
      (.error ("Fee record does not have microcredits"), []) ∧
    (VM.executeFeeRaw env pk r F q).1 ≠
      .error ("Fee record does not have enough balance to pay the fee") := by
  have hb : VM.balanceCheck r F = .error ("Fee record does not have microcredits") := by
    unfold VM.balanceCheck
    rw [hfind]
    match e with
    | .constant pt => rfl
    | .public pt => rfl
    | .priv (.literal (.u64 v)) => exact absurd rfl (hshape v)
    | .priv (.literal (.otherLiteral t)) => rfl
    | .priv (.otherPlaintext t) => rfl
  have hres : VM.executeFeeRaw env pk r F q =
      (.error ("Fee record does not have microcredits"), []) := by
    unfold VM.executeFeeRaw
    simp [hb]
  refine ⟨hres, ?_⟩
  rw [hres]
  simp

/-- C9 (witness): a record whose `microcredits` entry is a public `u64`
fails with the malformed-record error. -/
theorem C9_witness :
    VM.executeFeeRaw sampleFeeEnv 0 sampleBadFeeRecord 3 none =
      (.error ("Fee record does not have microcredits"), []) :=
  (C9_malformed_entry sampleFeeEnv 0 none sampleBadFeeRecord 3
    (VM.Entry.public (VM.Plaintext.literal (VM.Literal.u64 5)))
    rfl
    (by
      intro B h
      simp at h)).1

end SnarkVM
